import Mathlib

/-!
Verification development for the fledge readings storage and ingest subsystem
(`C/plugins/storage/sqlite/common/readings.cpp` and the concatenated ingest
source). The C++ code is shallowly embedded: each modelled routine is a pure
Lean function over explicit inputs (SQLite step results become an oracle
`Nat → Int` of result codes, random jitter becomes an oracle `Nat → Nat`,
database contents become lists). Machine integers are modelled with `Nat`/`Int`;
all the modelled quantities stay far from any overflow boundary.
-/

/-! ### SQLite result codes (sqlite3.h) used by the retry logic -/

def SQLITE_OK : Int := 0
def SQLITE_BUSY : Int := 5
def SQLITE_LOCKED : Int := 6
def SQLITE_ROW : Int := 100
def SQLITE_DONE : Int := 101

/-- Predicate of the retry condition `rc == SQLITE_LOCKED || rc == SQLITE_BUSY`
appearing in `SQLexec`, `SQLStep` and the prepared-INSERT loops. -/
def lockedOrBusy (rc : Int) : Bool :=
  rc == SQLITE_LOCKED || rc == SQLITE_BUSY

/-! ### Retry constants (readings.cpp lines 39-41 and 77-78) -/

def MAX_RETRIES : Nat := 40
def RETRY_BACKOFF : Nat := 100
def PREP_CMD_MAX_RETRIES : Nat := 20
def PREP_CMD_RETRY_BASE : Nat := 5000
def PREP_CMD_RETRY_BACKOFF : Nat := 5000

/-!
### The do-while retry loop

`ReadingsCatalogue::SQLexec`, `ReadingsCatalogue::SQLStep` and the inline
prepared-INSERT loops of `Connection::appendReadings` / `Connection::readingStream`
all share the same shape:

    int retries = 0;
    do {
        rc = <execute attempt>;
        retries++;            // (the INSERT loops increment only on BUSY/LOCKED)
        if (rc == SQLITE_LOCKED || rc == SQLITE_BUSY) { <sleep>; }
    } while (retries < <max> && (rc == SQLITE_LOCKED || rc == SQLITE_BUSY));

`retryLoop step maxR sleepOf fuel k` runs attempt numbers `k, k+1, ...`;
`step k` is the result code of attempt `k` and `sleepOf k` the duration slept
after attempt `k` when it came back BUSY/LOCKED. It returns the final result
code, the total number of attempts performed, and the list of sleeps, in order.
`fuel` only bounds the recursion; with `fuel = maxR` starting at `k = 0` the
loop always stops through the `k + 1 < maxR` guard, exactly as the C loop. -/
def retryLoop (step : Nat → Int) (maxR : Nat) (sleepOf : Nat → Nat) :
    Nat → Nat → Int × Nat × List Nat
  | 0, k => (step k, k + 1, if lockedOrBusy (step k) then [sleepOf k] else [])
  | fuel + 1, k =>
    if lockedOrBusy (step k) then
      if k + 1 < maxR then
        let r := retryLoop step maxR sleepOf fuel (k + 1)
        (r.1, r.2.1, sleepOf k :: r.2.2)
      else (step k, k + 1, [sleepOf k])
    else (step k, k + 1, [])

/-- Model of `ReadingsCatalogue::SQLexec` (readings.cpp lines 2522-2559):
`res k` is the result of the `sqlite3_exec` on attempt `k`; after a BUSY/LOCKED
attempt `k` the loop sleeps `interval = retries * RETRY_BACKOFF = (k+1) * 100`
microseconds (`usleep(interval)`). -/
def SQLexec (res : Nat → Int) : Int × Nat × List Nat :=
  retryLoop res MAX_RETRIES (fun k => (k + 1) * RETRY_BACKOFF) MAX_RETRIES 0

/-- Model of `ReadingsCatalogue::SQLStep` (readings.cpp lines 2562-2588), the
same loop as `SQLexec` with `sqlite3_step` in place of `sqlite3_exec`. -/
def SQLStep (res : Nat → Int) : Int × Nat × List Nat :=
  retryLoop res MAX_RETRIES (fun k => (k + 1) * RETRY_BACKOFF) MAX_RETRIES 0

/-- Sleep duration, in milliseconds, of one retry of the prepared-INSERT loops
(readings.cpp lines 507/519 and 810/822):
`sleep_time_ms = PREP_CMD_RETRY_BASE + (random() % PREP_CMD_RETRY_BACKOFF)`,
then `std::this_thread::sleep_for(std::chrono::milliseconds(sleep_time_ms))`. -/
def prepSleepMs (jitter : Nat) : Nat :=
  PREP_CMD_RETRY_BASE + jitter % PREP_CMD_RETRY_BACKOFF

/-- Modelled from the spec: the sleep duration the spec attributes to one retry
of the prepared-INSERT path, `PREP_CMD_RETRY_BASE + rand() % PREP_CMD_RETRY_BACKOFF`
with both constants equal to 5 ms; expressed in milliseconds for comparison with
`prepSleepMs`. -/
def claimedPrepSleepMs (jitter : Nat) : Nat :=
  5 + jitter % 5

/-- Model of the prepared-INSERT retry loop of `Connection::appendReadings`
(readings.cpp lines 800-829) and `Connection::readingStream` (lines 492-526):
`res k` is the `sqlite3_step` result of attempt `k`, `jitter k` the value of
`random()` drawn after attempt `k`. -/
def prepInsertRetry (res : Nat → Int) (jitter : Nat → Nat) : Int × Nat × List Nat :=
  retryLoop res PREP_CMD_MAX_RETRIES (fun k => prepSleepMs (jitter k))
    PREP_CMD_MAX_RETRIES 0

/-!
### Global ID management (`ReadingsCatalogue`)

The next-to-use global reading ID lives in `configuration_readings.global_id`.
A table of readings is modelled by the list of the `id` values of its rows;
`sqlite3_column_int` on the NULL produced by `max(id)` of an empty table gives 0.
-/

/-- Model of `ReadingsCatalogue::calculateGlobalId` (readings.cpp lines
1947-2012): `SELECT max(id) FROM (SELECT max(id) FROM readings_1 UNION ... )`,
then `id++`. `tables` holds, per readings table, the list of its `id` values
(the empty catalogue queries `readings_1` alone, which is the one-table case).
An empty result column reads as 0, so an empty database yields 1. -/
def calculateGlobalId (tables : List (List Nat)) : Int :=
  (((tables.map fun t => t.foldl max 0).foldl max 0 : Nat) : Int) + 1

/-- Model of `ReadingsCatalogue::evaluateGlobalId` (readings.cpp lines
1836-1911). `stored` is the current content of `configuration_readings.global_id`
(`none` when the table has no row). Returns the adopted in-memory `m_globalId`
and the value left in `configuration_readings.global_id` afterwards. The code:
missing row => `m_globalId = 1` (and the row is inserted); otherwise adopt the
stored value; recompute through `calculateGlobalId` only when the adopted value
is exactly `-1`; finally `UPDATE ... SET global_id=-1`. -/
def evaluateGlobalId (stored : Option Int) (tables : List (List Nat)) :
    Int × Int :=
  let g0 : Int := match stored with
    | none => 1
    | some v => v
  let g1 : Int := if g0 = -1 then calculateGlobalId tables else g0
  (g1, -1)

/-- Model of `ReadingsCatalogue::storeGlobalId` (readings.cpp lines 1915-1944):
the value written into `configuration_readings.global_id` at graceful shutdown.
The code builds the statement

    " UPDATE ... SET global_id=-" + to_string(m_globalId)

so for an in-memory value `g` the stored value is `-g`. -/
def storeGlobalId (g : Int) : Int := -g

/-!
### `Connection::appendReadings` (readings.cpp lines 612-911)

One element of the parsed `readings` array is abstracted by how the loop body
treats it: not a JSON object (immediate `ROLLBACK`, return -1); `user_ts`
failing `formatDate` (`add_row = false`, the element is skipped and the loop
continues); or an element whose prepared INSERT step ends in `SQLITE_DONE`
(`row++`) or in a non-retriable error after the retry loop (`ROLLBACK`,
return -1). The emitted transaction-control and insert statements are traced.
-/

inductive Rd where
  | nonObject : Rd
  | badDate : Rd
  | insertOk : Rd
  | insertErr : Rd
deriving DecidableEq

inductive DbEv where
  | beginTx : DbEv
  | insertRow : DbEv
  | rollbackTx : DbEv
  | endTx : DbEv
deriving DecidableEq

/-- The `for` loop over the parsed readings array of `Connection::appendReadings`
(readings.cpp lines 705-850), accumulating the successful-insert counter `row`
(started at `n`). Returns `none` on the paths that issue `ROLLBACK TRANSACTION`
and `return -1`, `some row` when the loop completes, together with the trace of
insert events. -/
def appendLoop : List Rd → Nat → Option Nat × List DbEv
  | [], n => (some n, [])
  | Rd.nonObject :: _, _ => (none, [DbEv.rollbackTx])
  | Rd.badDate :: rest, n => appendLoop rest n
  | Rd.insertOk :: rest, n =>
    let r := appendLoop rest (n + 1)
    (r.1, DbEv.insertRow :: r.2)
  | Rd.insertErr :: _, _ => (none, [DbEv.rollbackTx])

/-- Model of `Connection::appendReadings`. `parseOk` covers the three early
returns (JSON parse error, missing `readings` member, `readings` not an array),
which happen before any transaction is opened. Otherwise a single
`BEGIN TRANSACTION` precedes the loop; if the loop completes, `END TRANSACTION`
is executed (`endOk` is its outcome; on failure `row = -1`). Returns the `int`
return value and the trace of statements. -/
def appendReadings (parseOk : Bool) (rds : List Rd) (endOk : Bool) :
    Int × List DbEv :=
  if parseOk then
    match appendLoop rds 0 with
    | (none, evs) => (-1, DbEv.beginTx :: evs)
    | (some n, evs) =>
      ((if endOk then (n : Int) else -1), DbEv.beginTx :: (evs ++ [DbEv.endTx]))
  else (-1, [])

/-- Whether the readings batch contains an element whose INSERT step fails
non-retriably (the only error class the claim attributes the `ROLLBACK` and
return -1 outcome to). -/
def hasInsertError (rds : List Rd) : Bool :=
  rds.any fun r => r == Rd.insertErr

/-!
### `Connection::readingStream` (readings.cpp lines 387-607)

A stream entry either fails `formatDate` on its formatted `user_ts`
(`add_row = false`: skipped, the loop continues) or reaches the prepared INSERT,
which ends in `SQLITE_DONE` (`rowNumber++`) or in an error (`ROLLBACK`,
return -1). After the loop the code executes `rowNumber = i;` where `i` is the
index one past the last stream entry, then commits (`commit` is forced true;
a failing `END TRANSACTION` sets `rowNumber = -1`).
-/

inductive StreamEntry where
  | badDate : StreamEntry
  | insertOk : StreamEntry
  | insertErr : StreamEntry
deriving DecidableEq

/-- The `for (i = 0; readings[i]; i++)` loop of `Connection::readingStream`,
carrying the entry index `i` and the successful-insert counter `rowNumber`.
Returns `none` on the insert-error path, otherwise `some (i, rowNumber)`. -/
def readingStreamLoop : List StreamEntry → Nat → Nat → Option (Nat × Nat)
  | [], i, ins => some (i, ins)
  | StreamEntry.badDate :: rest, i, ins => readingStreamLoop rest (i + 1) ins
  | StreamEntry.insertOk :: rest, i, ins => readingStreamLoop rest (i + 1) (ins + 1)
  | StreamEntry.insertErr :: _, _, _ => none

/-- Model of the return value of `Connection::readingStream`: `-1` on an insert
error or a failing commit, otherwise the value of `rowNumber` after
`rowNumber = i;` — the number of stream entries processed, not the number of
rows inserted. -/
def readingStream (entries : List StreamEntry) (endOk : Bool) : Int :=
  match readingStreamLoop entries 0 0 with
  | none => -1
  | some p => if endOk then (p.1 : Int) else -1

/-- Number of stream entries actually inserted: the entries that reach the
prepared INSERT and step to `SQLITE_DONE` (invalid-date entries are skipped). -/
def streamInsertedCount : List StreamEntry → Nat
  | [] => 0
  | StreamEntry.badDate :: rest => streamInsertedCount rest
  | StreamEntry.insertOk :: rest => streamInsertedCount rest + 1
  | StreamEntry.insertErr :: rest => streamInsertedCount rest

/-!
### `Connection::purgeReadings` — purge by age (readings.cpp lines 1367-1689)

The snapshot is described by `minrowid = min(rowid)` and `maxrowid = max(rowid)`
of `readings_1` taken at entry (SQLite rowids of a non-empty table are >= 1).
`oldAt rid` models the probe
`select id from readings_1 where rowid = rid AND user_ts < datetime('now', '-<age> hours')`
returning a row (true) or nothing (`midRowId == 0`, false).
-/

/-- The rowid binary search of `Connection::purgeReadings` (readings.cpp lines
1481-1526). Arguments mirror the C variables `l`, `r`, `m` (with `m`
initialised to `l` before the loop); `fuel` bounds the iteration count and is
chosen large enough at the call site. Returns the final value of `m`, which
becomes the refined `rowidLimit`. -/
def purgeBSearch (oldAt : Nat → Bool) : Nat → Nat → Nat → Nat → Nat
  | 0, _, _, m => m
  | fuel + 1, l, r, m =>
    if l ≤ r then
      let mid := l + (r - l) / 2
      if mid = m then m
      else if oldAt mid then purgeBSearch oldAt fuel (mid + 1) r mid
      else purgeBSearch oldAt fuel l (mid - 1) (mid - 1)
    else m

/-- The computation of the purge ceiling `rowidLimit` in
`Connection::purgeReadings` (readings.cpp lines 1465-1537):
`r = ((flags & 0x01) && sent) ? min(sent, rowidLimit) : rowidLimit;
r = max(r, l);` then `if (l == r) return 0;`, the binary search, and
`if (minrowidLimit == rowidLimit) return 0;`. `none` models the early
returns that purge nothing. -/
def purgeCeiling (flags sent minrowid maxrowid : Nat) (oldAt : Nat → Bool) :
    Option Nat :=
  let l := minrowid
  let r := if flags % 2 = 1 ∧ sent ≠ 0 then min sent maxrowid else maxrowid
  let r := max r l
  if l = r then none
  else
    let m := purgeBSearch oldAt (r + 1) l r l
    if m = minrowid then none else some m

/-- The caps of the block-delete loop of `Connection::purgeReadings`
(readings.cpp lines 1584-1662): starting from `rowidMin = minrowidLimit`, each
block advances `rowidMin` by the current `purgeBlockSize` (`sizes blk` for
block number `blk`, since the size is retuned every 30 blocks), clamps it to
`rowidLimit`, and issues `DELETE ... WHERE rowid <= rowidMin`. The list holds
the successive caps of those DELETE statements. -/
def purgeBlockCaps (sizes : Nat → Nat) : Nat → Nat → Nat → Nat → List Nat
  | 0, _, _, _ => []
  | fuel + 1, start, limit, blk =>
    if start < limit then
      let next := if start + sizes blk > limit then limit else start + sizes blk
      next :: purgeBlockCaps sizes fuel next limit (blk + 1)
    else []

/-- The set of rowids removed by one `purgeReadings` call on a snapshot whose
rows carry the rowids `rows`: nothing when the ceiling computation returns
early, otherwise every row whose rowid is at most some DELETE cap of the block
loop (fuel `c + 1` suffices: each block strictly advances `rowidMin`). -/
def purgeDeletedRowids (flags sent minrowid maxrowid : Nat)
    (oldAt : Nat → Bool) (sizes : Nat → Nat) (rows : List Nat) : List Nat :=
  match purgeCeiling flags sent minrowid maxrowid oldAt with
  | none => []
  | some c =>
    let caps := purgeBlockCaps sizes (c + 1) minrowid c 0
    rows.filter fun rid => caps.any fun cap => rid ≤ cap

/-! ### The adaptive purge block size (readings.cpp lines 49-58, 103, 1636-1660) -/

def PURGE_DELETE_BLOCK_SIZE : Nat := 20
def TARGET_PURGE_BLOCK_DEL_TIME : Nat := 70 * 1000
def PURGE_BLOCK_SZ_GRANULARITY : Nat := 5
def MIN_PURGE_DELETE_BLOCK_SIZE : Nat := 20
def MAX_PURGE_DELETE_BLOCK_SIZE : Nat := 1500
def RECALC_PURGE_BLOCK_SIZE_NUM_BLOCKS : Nat := 30

/-- One recomputation of `purgeBlockSize` (readings.cpp lines 1636-1660), run
once every `RECALC_PURGE_BLOCK_SIZE_NUM_BLOCKS` blocks with `avg` the blended
per-block time in microseconds. When `|avg - 70000| > 7000` the code computes
`ratio = 70000.0 / avg` clamped to `[0.5, 2.0]`, scales the size by it
(float truncated to `int`, rendered here by exact natural arithmetic: `avg = 0`
gives an infinite ratio, clamped to 2), rounds down to a multiple of
`PURGE_BLOCK_SZ_GRANULARITY`, then clamps below to
`MIN_PURGE_DELETE_BLOCK_SIZE` and above to `MAX_PURGE_DELETE_BLOCK_SIZE`. -/
def nextPurgeBlockSize (size avg : Nat) : Nat :=
  if 7000 < ((avg : Int) - TARGET_PURGE_BLOCK_DEL_TIME).natAbs then
    let scaled :=
      if TARGET_PURGE_BLOCK_DEL_TIME ≥ 2 * avg then 2 * size
      else if 2 * TARGET_PURGE_BLOCK_DEL_TIME ≤ avg then size / 2
      else size * TARGET_PURGE_BLOCK_DEL_TIME / avg
    let granular := scaled / PURGE_BLOCK_SZ_GRANULARITY * PURGE_BLOCK_SZ_GRANULARITY
    let lo := if granular < MIN_PURGE_DELETE_BLOCK_SIZE
      then MIN_PURGE_DELETE_BLOCK_SIZE else granular
    if lo > MAX_PURGE_DELETE_BLOCK_SIZE then MAX_PURGE_DELETE_BLOCK_SIZE else lo
  else size

/-- The value of the process-wide `purgeBlockSize` after `n` recomputations,
where `avgs k` is the blended average observed at the `k`-th recomputation.
`static int purgeBlockSize = PURGE_DELETE_BLOCK_SIZE;` (readings.cpp line 103)
gives the initial value. -/
def purgeBlockSizeAt (avgs : Nat → Nat) : Nat → Nat
  | 0 => PURGE_DELETE_BLOCK_SIZE
  | n + 1 => nextPurgeBlockSize (purgeBlockSizeAt avgs n) (avgs n)

/-!
### `Ingest::processQueue` — resend-queue failure handling (ingest source,
readings.cpp lines 2995-3024 of the concatenation)

A queue is a list of readings (abstracted to `Nat`). On a failed
`m_storage.readingAppend` of the front resend queue, `m_failCnt` is
incremented; once it exceeds 5, up to 5 readings are erased from the front of
that queue, `logDiscardedStat()` is called for each (modelled from the spec:
its body lives in `ingest.h`, outside the sources; per the spec each dropped
reading is "counted as DISCARDED", i.e. the discarded counter is incremented),
the queue is dropped from `m_resendQueues` when it became empty, and
`m_failCnt` is reset to 0.
-/

/-- One failed iteration of the `while (m_resendQueues.size() > 0)` loop of
`Ingest::processQueue`: the state is `(m_resendQueues, m_failCnt,
m_discardedReadings)`. -/
def resendFailStep (qs : List (List Nat)) (failCnt discarded : Nat) :
    List (List Nat) × Nat × Nat :=
  match qs with
  | [] => ([], failCnt, discarded)
  | q :: rest =>
    let fc := failCnt + 1
    if 5 < fc then
      let q2 := q.drop 5
      ((if q2.isEmpty then rest else q2 :: rest), 0, discarded + min 5 q.length)
    else (q :: rest, fc, discarded)

/-!
### `Ingest::updateStats` (ingest source, readings.cpp lines 2693-2769 of the
concatenation)

`statsPendingEntries` maps asset names to accumulated counts; uppercasing of
the statistics key does not matter for the claims and asset names are kept
verbatim. A tick with an empty pending map returns before building any update.
Otherwise per-asset rows are added for the nonzero entries, then a `READINGS`
row when the summed count is nonzero, then a `DISCARDED` row when
`m_discardedReadings` is nonzero.
-/

inductive StatKey where
  | asset : String → StatKey
  | readings : StatKey
  | discarded : StatKey
deriving DecidableEq

/-- The keys of the rows contained in the batch update that one
`Ingest::updateStats` tick submits to the statistics table (empty when the
tick returns without submitting anything). -/
def updateStatsKeys (pending : List (String × Nat)) (discardedReadings : Nat) :
    List StatKey :=
  if pending.isEmpty then []
  else
    let perAsset := (pending.filter fun p => p.2 ≠ 0).map fun p => StatKey.asset p.1
    let readings := (pending.map fun p => p.2).sum
    perAsset
      ++ (if readings ≠ 0 then [StatKey.readings] else [])
      ++ (if discardedReadings ≠ 0 then [StatKey.discarded] else [])

/-! ## Helper lemmas -/

theorem range_map_shift {α : Type} (f : Nat → α) (n : Nat) :
    (List.range (n + 1)).map f = f 0 :: (List.range n).map fun i => f (i + 1) := by
  rw [List.range_succ_eq_map, List.map_cons, List.map_map]
  rfl

theorem retryLoop_zero (step : Nat → Int) (maxR : Nat) (sleepOf : Nat → Nat)
    (k : Nat) :
    retryLoop step maxR sleepOf 0 k
      = (step k, k + 1, if lockedOrBusy (step k) then [sleepOf k] else []) := rfl

theorem retryLoop_succ_busy_cont (step : Nat → Int) (maxR : Nat)
    (sleepOf : Nat → Nat) (fuel k : Nat)
    (hb : lockedOrBusy (step k) = true) (hlt : k + 1 < maxR) :
    retryLoop step maxR sleepOf (fuel + 1) k
      = ((retryLoop step maxR sleepOf fuel (k + 1)).1,
         (retryLoop step maxR sleepOf fuel (k + 1)).2.1,
         sleepOf k :: (retryLoop step maxR sleepOf fuel (k + 1)).2.2) := by
  simp [retryLoop, hb, hlt]

theorem retryLoop_succ_busy_stop (step : Nat → Int) (maxR : Nat)
    (sleepOf : Nat → Nat) (fuel k : Nat)
    (hb : lockedOrBusy (step k) = true) (hge : ¬ k + 1 < maxR) :
    retryLoop step maxR sleepOf (fuel + 1) k = (step k, k + 1, [sleepOf k]) := by
  simp [retryLoop, hb, hge]

theorem retryLoop_succ_nonbusy (step : Nat → Int) (maxR : Nat)
    (sleepOf : Nat → Nat) (fuel k : Nat)
    (hb : lockedOrBusy (step k) = false) :
    retryLoop step maxR sleepOf (fuel + 1) k = (step k, k + 1, []) := by
  simp [retryLoop, hb]

/-- Shape of a final attempt of `retryLoop`, stated on the components of the
returned triple. -/
theorem retryLoop_out_terminal (step : Nat → Int) (maxR : Nat)
    (sleepOf : Nat → Nat) (k : Nat) (S : List Nat) (hk : k < maxR)
    (hbm : lockedOrBusy (step k) = true → maxR ≤ k + 1)
    (hSb : lockedOrBusy (step k) = true → S = [sleepOf k])
    (hSn : lockedOrBusy (step k) = false → S = []) :
    (k + 1 ≤ k + 1 ∧ k + 1 ≤ maxR)
    ∧ step k = step (k + 1 - 1)
    ∧ (∀ j, k ≤ j → j + 1 < k + 1 → lockedOrBusy (step j) = true)
    ∧ (lockedOrBusy (step k) = true → k + 1 = maxR)
    ∧ (lockedOrBusy (step k) = true →
        S = (List.range (k + 1 - k)).map fun i => sleepOf (k + i))
    ∧ (lockedOrBusy (step k) = false →
        S = (List.range (k + 1 - k - 1)).map fun i => sleepOf (k + i)) := by
  refine ⟨⟨le_refl _, by omega⟩, by rw [Nat.add_sub_cancel], ?_, ?_, ?_, ?_⟩
  · intro j hkj hj
    exact absurd hj (by omega)
  · intro h
    have := hbm h
    omega
  · intro h
    rw [hSb h]
    have h1 : k + 1 - k = 1 := by omega
    rw [h1]
    rfl
  · intro h
    rw [hSn h]
    have h1 : k + 1 - k - 1 = 0 := by omega
    rw [h1]
    rfl

/-- Full characterisation of `retryLoop`: attempt count bounds, the returned
code is the last attempt's, every attempt before the last was BUSY/LOCKED,
a BUSY/LOCKED final code means the attempt budget was exhausted, and the sleep
list contains `sleepOf` of every BUSY/LOCKED attempt in order. -/
theorem retryLoop_spec (step : Nat → Int) (maxR : Nat) (sleepOf : Nat → Nat) :
    ∀ fuel k, k < maxR → maxR ≤ fuel + k + 1 →
      (k + 1 ≤ (retryLoop step maxR sleepOf fuel k).2.1
        ∧ (retryLoop step maxR sleepOf fuel k).2.1 ≤ maxR)
      ∧ (retryLoop step maxR sleepOf fuel k).1
          = step ((retryLoop step maxR sleepOf fuel k).2.1 - 1)
      ∧ (∀ j, k ≤ j → j + 1 < (retryLoop step maxR sleepOf fuel k).2.1 →
          lockedOrBusy (step j) = true)
      ∧ (lockedOrBusy (retryLoop step maxR sleepOf fuel k).1 = true →
          (retryLoop step maxR sleepOf fuel k).2.1 = maxR)
      ∧ (lockedOrBusy (retryLoop step maxR sleepOf fuel k).1 = true →
          (retryLoop step maxR sleepOf fuel k).2.2
            = (List.range ((retryLoop step maxR sleepOf fuel k).2.1 - k)).map
                fun i => sleepOf (k + i))
      ∧ (lockedOrBusy (retryLoop step maxR sleepOf fuel k).1 = false →
          (retryLoop step maxR sleepOf fuel k).2.2
            = (List.range ((retryLoop step maxR sleepOf fuel k).2.1 - k - 1)).map
                fun i => sleepOf (k + i)) := by
  intro fuel
  induction fuel with
  | zero =>
    intro k hk hfuel
    have hout := retryLoop_out_terminal step maxR sleepOf k
      (if lockedOrBusy (step k) then [sleepOf k] else []) hk
      (fun _ => by omega) (fun h => by rw [if_pos h]) (fun h => by rw [if_neg (by simp [h])])
    exact hout
  | succ fuel ih =>
    intro k hk hfuel
    cases hb : lockedOrBusy (step k) with
    | true =>
      by_cases hlt : k + 1 < maxR
      · obtain ⟨⟨hn1, hn2⟩, hrc, hpre, hexh, hslb, hslnb⟩ :=
          ih (k + 1) hlt (by omega)
        simp only [retryLoop_succ_busy_cont step maxR sleepOf fuel k hb hlt]
        refine ⟨⟨Nat.le_of_succ_le hn1, hn2⟩, hrc, ?_, hexh, ?_, ?_⟩
        · intro j hkj hj
          rcases Nat.eq_or_lt_of_le hkj with h | h
          · rw [← h]
            exact hb
          · exact hpre j h hj
        · intro hfin
          rw [hslb hfin]
          have hnk : (retryLoop step maxR sleepOf fuel (k + 1)).2.1 - k
              = ((retryLoop step maxR sleepOf fuel (k + 1)).2.1 - (k + 1)) + 1 := by
            omega
          rw [hnk, range_map_shift]
          refine List.cons_eq_cons.mpr ⟨by simp, ?_⟩
          apply List.map_congr_left
          intro i _
          show sleepOf (k + 1 + i) = sleepOf (k + (i + 1))
          congr 1
          omega
        · intro hfin
          rw [hslnb hfin]
          have hnk : (retryLoop step maxR sleepOf fuel (k + 1)).2.1 - k - 1
              = ((retryLoop step maxR sleepOf fuel (k + 1)).2.1 - (k + 1) - 1) + 1 := by
            omega
          rw [hnk, range_map_shift]
          refine List.cons_eq_cons.mpr ⟨by simp, ?_⟩
          apply List.map_congr_left
          intro i _
          show sleepOf (k + 1 + i) = sleepOf (k + (i + 1))
          congr 1
          omega
      · have hout := retryLoop_out_terminal step maxR sleepOf k [sleepOf k] hk
          (fun _ => by omega) (fun _ => rfl) (fun hc => absurd hb (by simp [hc]))
        simp only [retryLoop_succ_busy_stop step maxR sleepOf fuel k hb hlt]
        exact hout
    | false =>
      have hout := retryLoop_out_terminal step maxR sleepOf k [] hk
        (fun hc => absurd hc (by simp [hb])) (fun hc => absurd hc (by simp [hb]))
        (fun _ => rfl)
      simp only [retryLoop_succ_nonbusy step maxR sleepOf fuel k hb]
      exact hout

/-! ## Claim C6 -/

/-- C6: the SQL retry executor (`SQLexec` and `SQLStep`) retries a statement
only when the result is BUSY or LOCKED, sleeping `retries * RETRY_BACKOFF`
(100 µs base) after the `k`-th attempt came back BUSY/LOCKED (i.e. before each
retry), for at most `MAX_RETRIES = 40` attempts; any other status ends the loop
at once (in particular a clean first attempt returns immediately with no
sleep), and after exhaustion the last BUSY/LOCKED status is returned
(the final code is always the last attempt's, and a BUSY/LOCKED final code
occurs only with the budget exhausted). `SQLStep` implements the identical
policy. -/
theorem SQLexec_SQLStep_retry_policy (res : Nat → Int) :
    (1 ≤ (SQLexec res).2.1 ∧ (SQLexec res).2.1 ≤ MAX_RETRIES)
    ∧ (SQLexec res).1 = res ((SQLexec res).2.1 - 1)
    ∧ (∀ j, j + 1 < (SQLexec res).2.1 → lockedOrBusy (res j) = true)
    ∧ (lockedOrBusy (SQLexec res).1 = true → (SQLexec res).2.1 = MAX_RETRIES)
    ∧ (lockedOrBusy (res 0) = false → SQLexec res = (res 0, 1, []))
    ∧ (lockedOrBusy (SQLexec res).1 = true →
        (SQLexec res).2.2
          = (List.range (SQLexec res).2.1).map fun i => (i + 1) * RETRY_BACKOFF)
    ∧ (lockedOrBusy (SQLexec res).1 = false →
        (SQLexec res).2.2
          = (List.range ((SQLexec res).2.1 - 1)).map fun i => (i + 1) * RETRY_BACKOFF)
    ∧ SQLStep res = SQLexec res := by
  have hdef : SQLexec res
      = retryLoop res MAX_RETRIES (fun k => (k + 1) * RETRY_BACKOFF) MAX_RETRIES 0 := rfl
  have hdef2 : SQLStep res
      = retryLoop res MAX_RETRIES (fun k => (k + 1) * RETRY_BACKOFF) MAX_RETRIES 0 := rfl
  rw [hdef, hdef2]
  obtain ⟨⟨h1, h2⟩, hrc, hpre, hexh, hslb, hslnb⟩ :=
    retryLoop_spec res MAX_RETRIES (fun k => (k + 1) * RETRY_BACKOFF) MAX_RETRIES 0
      (by decide) (by decide)
  rw [Nat.sub_zero] at hslb
  refine ⟨⟨h1, h2⟩, hrc, fun j hj => hpre j (Nat.zero_le j) hj, hexh, ?_, ?_, ?_, rfl⟩
  · intro hfalse
    have hn1 : (retryLoop res MAX_RETRIES (fun k => (k + 1) * RETRY_BACKOFF) MAX_RETRIES 0).2.1
        = 1 := by
      rcases Nat.lt_or_ge 1
          ((retryLoop res MAX_RETRIES (fun k => (k + 1) * RETRY_BACKOFF) MAX_RETRIES 0).2.1)
        with h | h
      · have hb0 := hpre 0 (Nat.zero_le 0) (by omega)
        rw [hb0] at hfalse
        cases hfalse
      · omega
    have e1 : (retryLoop res MAX_RETRIES (fun k => (k + 1) * RETRY_BACKOFF) MAX_RETRIES 0).1
        = res 0 := by
      rw [hrc, hn1]
    have e3 : (retryLoop res MAX_RETRIES (fun k => (k + 1) * RETRY_BACKOFF) MAX_RETRIES 0).2.2
        = [] := by
      have h4 := hslnb (by rw [e1]; exact hfalse)
      rw [hn1] at h4
      simpa using h4
    calc retryLoop res MAX_RETRIES (fun k => (k + 1) * RETRY_BACKOFF) MAX_RETRIES 0
        = ((retryLoop res MAX_RETRIES (fun k => (k + 1) * RETRY_BACKOFF) MAX_RETRIES 0).1,
           (retryLoop res MAX_RETRIES (fun k => (k + 1) * RETRY_BACKOFF) MAX_RETRIES 0).2.1,
           (retryLoop res MAX_RETRIES (fun k => (k + 1) * RETRY_BACKOFF) MAX_RETRIES 0).2.2) := rfl
      _ = (res 0, 1, []) := by rw [e1, hn1, e3]
  · intro hfin
    rw [hslb hfin]
    apply List.map_congr_left
    intro i _
    show ((0 + i) + 1) * RETRY_BACKOFF = (i + 1) * RETRY_BACKOFF
    rw [Nat.zero_add]
  · intro hfin
    rw [hslnb hfin]
    have hz : (retryLoop res MAX_RETRIES (fun k => (k + 1) * RETRY_BACKOFF) MAX_RETRIES 0).2.1
        - 0 - 1
        = (retryLoop res MAX_RETRIES (fun k => (k + 1) * RETRY_BACKOFF) MAX_RETRIES 0).2.1
        - 1 := by omega
    rw [hz]
    apply List.map_congr_left
    intro i _
    show ((0 + i) + 1) * RETRY_BACKOFF = (i + 1) * RETRY_BACKOFF
    rw [Nat.zero_add]

theorem SQLexec_retry_policy_witness :
    lockedOrBusy (SQLexec (fun _ => SQLITE_BUSY)).1 = true
    ∧ (SQLexec (fun _ => SQLITE_BUSY)).2.1 = MAX_RETRIES := by
  refine ⟨by decide, ?_⟩
  exact (SQLexec_SQLStep_retry_policy (fun _ => SQLITE_BUSY)).2.2.2.1 (by decide)

/-! ## Claim C9 -/

/-- C9 counterexample: the code converts `PREP_CMD_RETRY_BASE + random() %
PREP_CMD_RETRY_BACKOFF` to `std::chrono::milliseconds`, so with zero jitter one
retry sleeps 5000 ms — not the 5 ms the claim states (`claimedPrepSleepMs`
renders the claimed "both equal to 5 ms" duration in milliseconds). -/
theorem prepSleep_counterexample :
    prepSleepMs 0 = 5000 ∧ claimedPrepSleepMs 0 = 5
    ∧ prepSleepMs 0 ≠ claimedPrepSleepMs 0 := by decide

/-- C9 (amended): in the prepared-INSERT retry path used by `appendReadings`
and `readingStream`, each retry after a BUSY or LOCKED step sleeps
`PREP_CMD_RETRY_BASE` plus a random jitter below `PREP_CMD_RETRY_BACKOFF`
*milliseconds* — both constants equal 5000, i.e. a 5 s base with jitter below
5 s (not 5 ms) — and at most `PREP_CMD_MAX_RETRIES = 20` attempts are
performed, only BUSY/LOCKED results being retried. -/
theorem prepInsertRetry_policy (res : Nat → Int) (jitter : Nat → Nat) :
    PREP_CMD_RETRY_BASE = 5000 ∧ PREP_CMD_RETRY_BACKOFF = 5000
    ∧ PREP_CMD_MAX_RETRIES = 20
    ∧ (1 ≤ (prepInsertRetry res jitter).2.1
        ∧ (prepInsertRetry res jitter).2.1 ≤ PREP_CMD_MAX_RETRIES)
    ∧ (∀ j, j + 1 < (prepInsertRetry res jitter).2.1 → lockedOrBusy (res j) = true)
    ∧ (∀ s ∈ (prepInsertRetry res jitter).2.2,
        (∃ k, s = prepSleepMs (jitter k))
        ∧ PREP_CMD_RETRY_BASE ≤ s
        ∧ s < PREP_CMD_RETRY_BASE + PREP_CMD_RETRY_BACKOFF) := by
  have hdef : prepInsertRetry res jitter
      = retryLoop res PREP_CMD_MAX_RETRIES (fun k => prepSleepMs (jitter k))
          PREP_CMD_MAX_RETRIES 0 := rfl
  rw [hdef]
  obtain ⟨⟨h1, h2⟩, hrc, hpre, hexh, hslb, hslnb⟩ :=
    retryLoop_spec res PREP_CMD_MAX_RETRIES (fun k => prepSleepMs (jitter k))
      PREP_CMD_MAX_RETRIES 0 (by decide) (by decide)
  refine ⟨rfl, rfl, rfl, ⟨h1, h2⟩, fun j hj => hpre j (Nat.zero_le j) hj, ?_⟩
  intro s hs
  have hmem : ∃ k, s = prepSleepMs (jitter k) := by
    cases hfin : lockedOrBusy ((retryLoop res PREP_CMD_MAX_RETRIES
        (fun k => prepSleepMs (jitter k)) PREP_CMD_MAX_RETRIES 0).1) with
    | true =>
      rw [hslb hfin] at hs
      obtain ⟨i, _, hi⟩ := List.mem_map.mp hs
      exact ⟨0 + i, hi.symm⟩
    | false =>
      rw [hslnb hfin] at hs
      obtain ⟨i, _, hi⟩ := List.mem_map.mp hs
      exact ⟨0 + i, hi.symm⟩
  refine ⟨hmem, ?_, ?_⟩
  · obtain ⟨k, rfl⟩ := hmem
    exact Nat.le_add_right _ _
  · obtain ⟨k, rfl⟩ := hmem
    exact Nat.add_lt_add_left (Nat.mod_lt _ (by decide)) _

theorem prepInsertRetry_policy_witness :
    (∃ _k : Nat, (6234 : Nat) = prepSleepMs 1234)
    ∧ PREP_CMD_RETRY_BASE ≤ 6234
    ∧ 6234 < PREP_CMD_RETRY_BASE + PREP_CMD_RETRY_BACKOFF :=
  (prepInsertRetry_policy (fun _ => SQLITE_BUSY) (fun _ => 1234)).2.2.2.2.2
    6234 (by decide)

/-- The seed of a `foldl max` is a lower bound of the result. -/
theorem le_foldl_max_init (l : List Nat) : ∀ a : Nat, a ≤ l.foldl max a := by
  induction l with
  | nil => intro a; exact le_refl a
  | cons b l ih =>
    intro a
    exact le_trans (le_max_left a b) (ih (max a b))

/-- Every element of a list is bounded by its `foldl max`. -/
theorem le_foldl_max_mem (l : List Nat) : ∀ (a x : Nat), x ∈ l → x ≤ l.foldl max a := by
  induction l with
  | nil => intro a x hx; cases hx
  | cons b l ih =>
    intro a x hx
    rcases List.mem_cons.mp hx with rfl | hx
    · exact le_trans (le_max_right a x) (le_foldl_max_init l (max a x))
    · exact ih (max a b) x hx

/-! ## Claims C1 and C2 -/

/-- C1: `storeGlobalId` does not write the current in-memory global ID back:
the statement it executes is `UPDATE ... SET global_id=-<m_globalId>`, storing
the *negation*. With last issued ID 42 the in-memory next ID is 43; shutdown
stores -43, and the next startup (readings holding ids up to 42) adopts -43 —
not 43 = last issued + 1 — because -43 ≠ -1 so no recomputation happens. -/
theorem storeGlobalId_negates_value :
    storeGlobalId 43 = -43
    ∧ storeGlobalId 43 ≠ 43
    ∧ (evaluateGlobalId (some (storeGlobalId 43)) [[40, 41, 42]]).1 = -43
    ∧ (evaluateGlobalId (some (storeGlobalId 43)) [[40, 41, 42]]).1 ≠ 43 := by
  decide

/-- C2 counterexample: a stored `global_id` of 0 is *not* recomputed. The claim
says any stored value < 1 leads to `max(id)+1` (here 6); the code tests
`m_globalId == -1` only, so 0 is adopted as the next global ID. -/
theorem evaluateGlobalId_zero_not_recomputed :
    (evaluateGlobalId (some 0) [[5]]).1 = 0
    ∧ calculateGlobalId [[5]] = 6
    ∧ (evaluateGlobalId (some 0) [[5]]).1 ≠ calculateGlobalId [[5]] := by
  decide

/-- C2 (amended): at startup `evaluateGlobalId` recomputes the next ID as
`max(id)+1` over every readings table (the UNION of per-table `max(id)`
queries, realised by `calculateGlobalId`, which exceeds every stored id) only
when the stored global ID is exactly -1; any other stored value — including 0
or other negatives — is adopted verbatim (so in particular a stored value ≥ 1
is adopted), a missing row yields 1, and in every case the stored value is then
overwritten with -1 so that a crash forces recomputation at the next
startup. -/
theorem evaluateGlobalId_adoption (stored : Option Int) (tables : List (List Nat)) :
    (evaluateGlobalId stored tables).2 = -1
    ∧ (stored = some (-1) →
        (evaluateGlobalId stored tables).1 = calculateGlobalId tables)
    ∧ (∀ v, stored = some v → v ≠ -1 → (evaluateGlobalId stored tables).1 = v)
    ∧ (stored = none → (evaluateGlobalId stored tables).1 = 1)
    ∧ (∀ t ∈ tables, ∀ id ∈ t, (id : Int) < calculateGlobalId tables) := by
  refine ⟨rfl, ?_, ?_, ?_, ?_⟩
  · intro h
    subst h
    simp [evaluateGlobalId]
  · intro v hv hne
    subst hv
    simp [evaluateGlobalId, hne]
  · intro h
    subst h
    simp [evaluateGlobalId]
  · intro t ht id hid
    have h1 : id ≤ t.foldl max 0 := le_foldl_max_mem t 0 id hid
    have h2 : t.foldl max 0 ≤ (tables.map fun u => u.foldl max 0).foldl max 0 :=
      le_foldl_max_mem _ 0 _ (List.mem_map_of_mem _ ht)
    rw [calculateGlobalId]
    have h3 : id ≤ (tables.map fun u => u.foldl max 0).foldl max 0 := le_trans h1 h2
    exact_mod_cast Nat.lt_succ_of_le h3

theorem evaluateGlobalId_adoption_witness :
    (evaluateGlobalId (some (-1)) [[3]]).1 = calculateGlobalId [[3]]
    ∧ (evaluateGlobalId (some (-1)) [[3]]).2 = -1 :=
  ⟨(evaluateGlobalId_adoption (some (-1)) [[3]]).2.1 rfl,
   (evaluateGlobalId_adoption (some (-1)) [[3]]).1⟩

/-! ## Claim C4 -/

theorem getLast?_cons_of_some {α : Type} (a x : α) (l : List α)
    (h : l.getLast? = some x) : (a :: l).getLast? = some x := by
  cases l with
  | nil => simp at h
  | cons b t =>
    rw [List.getLast?_cons_cons]
    exact h

theorem appendLoop_none_rollback : ∀ (rds : List Rd) (n : Nat),
    (appendLoop rds n).1 = none →
    (appendLoop rds n).2.getLast? = some DbEv.rollbackTx := by
  intro rds
  induction rds with
  | nil =>
    intro n h
    simp [appendLoop] at h
  | cons r rest ih =>
    intro n h
    cases r with
    | nonObject => rfl
    | badDate => exact ih n h
    | insertOk =>
      have h1 : (appendLoop rest (n + 1)).1 = none := h
      exact getLast?_cons_of_some _ _ _ (ih (n + 1) h1)
    | insertErr => rfl

theorem appendLoop_some_count : ∀ (rds : List Rd) (n m : Nat),
    (appendLoop rds n).1 = some m →
    m = n + (appendLoop rds n).2.count DbEv.insertRow := by
  intro rds
  induction rds with
  | nil =>
    intro n m h
    simp [appendLoop] at h
    simp [appendLoop, ← h]
  | cons r rest ih =>
    intro n m h
    cases r with
    | nonObject => simp [appendLoop] at h
    | badDate => exact ih n m h
    | insertOk =>
      have h1 : (appendLoop rest (n + 1)).1 = some m := h
      have h2 := ih (n + 1) m h1
      show m = n + (DbEv.insertRow :: (appendLoop rest (n + 1)).2).count DbEv.insertRow
      rw [List.count_cons_self]
      omega
    | insertErr => simp [appendLoop] at h

theorem appendLoop_no_tx : ∀ (rds : List Rd) (n : Nat),
    DbEv.beginTx ∉ (appendLoop rds n).2 ∧ DbEv.endTx ∉ (appendLoop rds n).2 := by
  intro rds
  induction rds with
  | nil =>
    intro n
    simp [appendLoop]
  | cons r rest ih =>
    intro n
    cases r with
    | nonObject => simp [appendLoop]
    | badDate => exact ih n
    | insertOk =>
      have h := ih (n + 1)
      show DbEv.beginTx ∉ DbEv.insertRow :: (appendLoop rest (n + 1)).2
        ∧ DbEv.endTx ∉ DbEv.insertRow :: (appendLoop rest (n + 1)).2
      simp only [List.mem_cons]
      constructor
      · rintro (hc | hc)
        · cases hc
        · exact h.1 hc
      · rintro (hc | hc)
        · cases hc
        · exact h.2 hc
    | insertErr => simp [appendLoop]

/-- C4 counterexample: two batches that contain no non-retriable INSERT error
yet make `appendReadings` return -1 rather than the count of inserted rows —
a batch whose single element is not a JSON object (rolled back, 0 inserted),
and a batch of one inserted row whose final `END TRANSACTION` fails
(1 inserted, no explicit rollback). -/
theorem appendReadings_count_counterexample :
    hasInsertError [Rd.nonObject] = false
    ∧ (appendReadings true [Rd.nonObject] true).1 = -1
    ∧ (appendReadings true [Rd.nonObject] true).2.count DbEv.insertRow = 0
    ∧ hasInsertError [Rd.insertOk] = false
    ∧ (appendReadings true [Rd.insertOk] false).1 = -1
    ∧ (appendReadings true [Rd.insertOk] false).2.count DbEv.insertRow = 1 := by
  decide

/-- C4 (amended): `appendReadings` runs the whole batch inside a single
`BEGIN...END TRANSACTION` (the trace starts with the only BEGIN and ends with
either END or ROLLBACK); a reading whose `user_ts` fails date validation is
skipped and the batch continues; when the loop aborts — on a non-retriable
INSERT error, or equally on an element that is not a JSON object — a ROLLBACK
is issued and -1 is returned; otherwise, if the final `END TRANSACTION`
succeeds, the return value is the count of rows actually inserted, and if it
fails, -1 is returned. -/
theorem appendReadings_tx_semantics (rds : List Rd) (endOk : Bool) :
    (appendReadings true rds endOk).2.head? = some DbEv.beginTx
    ∧ (appendReadings true rds endOk).2.count DbEv.beginTx = 1
    ∧ ((appendReadings true rds endOk).2.getLast? = some DbEv.endTx
        ∨ (appendReadings true rds endOk).2.getLast? = some DbEv.rollbackTx)
    ∧ (∀ rest n, appendLoop (Rd.badDate :: rest) n = appendLoop rest n)
    ∧ ((appendLoop rds 0).1 = none →
        (appendReadings true rds endOk).1 = -1
        ∧ (appendReadings true rds endOk).2.getLast? = some DbEv.rollbackTx)
    ∧ (∀ m, (appendLoop rds 0).1 = some m → endOk = true →
        (appendReadings true rds endOk).1 = (m : Int)
        ∧ (appendReadings true rds endOk).2.count DbEv.insertRow = m)
    ∧ (∀ m, (appendLoop rds 0).1 = some m → endOk = false →
        (appendReadings true rds endOk).1 = -1) := by
  have hnb := appendLoop_no_tx rds 0
  rcases hsplit : appendLoop rds 0 with ⟨res, evs⟩
  rw [hsplit] at hnb
  cases res with
  | none =>
    have hlast : evs.getLast? = some DbEv.rollbackTx := by
      have := appendLoop_none_rollback rds 0 (by rw [hsplit])
      rw [hsplit] at this
      exact this
    simp only [appendReadings, hsplit, if_true]
    refine ⟨rfl, ?_, ?_, fun rest n => rfl, ?_, ?_, ?_⟩
    · rw [List.count_cons_self]
      rw [List.count_eq_zero.mpr hnb.1]
    · exact Or.inr (getLast?_cons_of_some _ _ _ hlast)
    · intro _
      exact ⟨by trivial, getLast?_cons_of_some _ _ _ hlast⟩
    · intro m hm
      exact absurd hm (by simp)
    · intro m hm
      exact absurd hm (by simp)
  | some m =>
    have hcount : m = evs.count DbEv.insertRow := by
      have := appendLoop_some_count rds 0 m (by rw [hsplit])
      rw [hsplit] at this
      simpa using this
    simp only [appendReadings, hsplit, if_true]
    refine ⟨rfl, ?_, ?_, fun rest n => rfl, ?_, ?_, ?_⟩
    · rw [List.count_cons_self, List.count_append,
        List.count_eq_zero.mpr hnb.1]
      rfl
    · refine Or.inl ?_
      rw [show DbEv.beginTx :: (evs ++ [DbEv.endTx])
            = (DbEv.beginTx :: evs) ++ [DbEv.endTx] from rfl,
          List.getLast?_concat]
    · intro hc
      exact absurd hc (by simp)
    · intro m2 hm2 hend
      have hm : m2 = m := by
        have := Option.some.inj hm2
        omega
      subst hm hend
      refine ⟨by simp, ?_⟩
      rw [List.count_cons_of_ne (by simp), List.count_append]
      have hone : List.count DbEv.insertRow [DbEv.endTx] = 0 := rfl
      rw [hone, hcount]
      omega
    · intro m2 hm2 hend
      subst hend
      simp

theorem appendReadings_tx_semantics_witness :
    (appendReadings true [Rd.insertOk, Rd.badDate] true).1 = (1 : Int)
    ∧ (appendReadings true [Rd.insertOk, Rd.badDate] true).2.count DbEv.insertRow = 1 :=
  (appendReadings_tx_semantics [Rd.insertOk, Rd.badDate] true).2.2.2.2.2.1 1 rfl rfl

/-! ## Claim C5 -/

theorem readingStreamLoop_some_spec : ∀ (entries : List StreamEntry)
    (i0 ins0 i ins : Nat),
    readingStreamLoop entries i0 ins0 = some (i, ins) →
    i = i0 + entries.length ∧ ins = ins0 + streamInsertedCount entries := by
  intro entries
  induction entries with
  | nil =>
    intro i0 ins0 i ins h
    simp [readingStreamLoop] at h
    simp [streamInsertedCount, ← h.1, ← h.2]
  | cons e rest ih =>
    intro i0 ins0 i ins h
    cases e with
    | badDate =>
      have h2 := ih (i0 + 1) ins0 i ins h
      simp only [streamInsertedCount, List.length_cons]
      omega
    | insertOk =>
      have h2 := ih (i0 + 1) (ins0 + 1) i ins h
      simp only [streamInsertedCount, List.length_cons]
      omega
    | insertErr => simp [readingStreamLoop] at h

/-- C5 counterexample: a stream consisting of one entry whose date fails
validation: 0 rows are inserted, yet `readingStream` returns 1 — the
`rowNumber = i;` after the loop replaces the count of inserted rows by the
count of processed stream entries. -/
theorem readingStream_count_counterexample :
    readingStream [StreamEntry.badDate] true = 1
    ∧ streamInsertedCount [StreamEntry.badDate] = 0
    ∧ readingStream [StreamEntry.badDate] true
        ≠ (streamInsertedCount [StreamEntry.badDate] : Int) := by
  decide

/-- C5 (amended): on success (no insert error, commit succeeds) the return
value of `readingStream` equals the number of stream entries *processed* —
the full length of the stream, counting also the entries skipped for an
invalid date — which exceeds the number of rows actually inserted whenever an
entry was skipped; an insert error yields -1, as in `appendReadings`. -/
theorem readingStream_processed_count (entries : List StreamEntry) :
    (∀ i ins, readingStreamLoop entries 0 0 = some (i, ins) →
      readingStream entries true = (entries.length : Int)
      ∧ i = entries.length ∧ ins = streamInsertedCount entries)
    ∧ (readingStreamLoop entries 0 0 = none → readingStream entries true = -1) := by
  constructor
  · intro i ins h
    have h2 := readingStreamLoop_some_spec entries 0 0 i ins h
    simp only [Nat.zero_add] at h2
    refine ⟨?_, h2.1, h2.2⟩
    rw [readingStream, h]
    simp [h2.1]
  · intro h
    rw [readingStream, h]

theorem readingStream_processed_count_witness :
    readingStream [StreamEntry.badDate, StreamEntry.insertOk] true = (2 : Int) :=
  ((readingStream_processed_count [StreamEntry.badDate, StreamEntry.insertOk]).1
    2 1 rfl).1

/-! ## Claim C3 -/

/-- The binary search never exceeds a bound that dominates its initial `m`
and `r`. -/
theorem purgeBSearch_le (oldAt : Nat → Bool) (B : Nat) :
    ∀ fuel l r m, m ≤ B → r ≤ B → purgeBSearch oldAt fuel l r m ≤ B := by
  intro fuel
  induction fuel with
  | zero => intro l r m hm _; exact hm
  | succ fuel ih =>
    intro l r m hm hr
    rw [purgeBSearch]
    by_cases hlr : l ≤ r
    · rw [if_pos hlr]
      have hmid : l + (r - l) / 2 ≤ B := by
        have : (r - l) / 2 ≤ r - l := Nat.div_le_self _ _
        omega
      by_cases heq : l + (r - l) / 2 = m
      · rw [if_pos heq]
        exact hm
      · rw [if_neg heq]
        by_cases hold : oldAt (l + (r - l) / 2)
        · rw [if_pos hold]
          exact ih (l + (r - l) / 2 + 1) r (l + (r - l) / 2) hmid hr
        · rw [if_neg hold]
          exact ih l (l + (r - l) / 2 - 1) (l + (r - l) / 2 - 1) (by omega) (by omega)
    · rw [if_neg hlr]
      exact hm

/-- When the keep-unsent flag is set and `sent` is nonzero, the purge ceiling
is at most `sent`. -/
theorem purgeCeiling_le_sent (flags sent minrowid maxrowid : Nat)
    (oldAt : Nat → Bool) (hflag : flags % 2 = 1) (hsent : sent ≠ 0) :
    ∀ c, purgeCeiling flags sent minrowid maxrowid oldAt = some c → c ≤ sent := by
  intro c hc
  rw [purgeCeiling] at hc
  simp only [hflag, hsent, ne_eq, not_false_iff, and_true, if_true] at hc
  by_cases hlr : minrowid = max (min sent maxrowid) minrowid
  · rw [if_pos hlr] at hc
    cases hc
  · rw [if_neg hlr] at hc
    have hrle : max (min sent maxrowid) minrowid ≤ sent := by
      rcases Nat.le_total (min sent maxrowid) minrowid with h | h
      · exact absurd (by omega) hlr
      · omega
    have hb := purgeBSearch_le oldAt (max (min sent maxrowid) minrowid)
      (max (min sent maxrowid) minrowid + 1) minrowid
      (max (min sent maxrowid) minrowid) minrowid (le_max_right _ _) (le_refl _)
    by_cases hmin : purgeBSearch oldAt (max (min sent maxrowid) minrowid + 1)
        minrowid (max (min sent maxrowid) minrowid) minrowid = minrowid
    · rw [if_pos hmin] at hc
      cases hc
    · rw [if_neg hmin] at hc
      have := Option.some.inj hc
      omega

/-- Every DELETE cap of the block loop is at most the purge ceiling. -/
theorem purgeBlockCaps_le (sizes : Nat → Nat) :
    ∀ fuel start limit blk cap,
      cap ∈ purgeBlockCaps sizes fuel start limit blk → cap ≤ limit := by
  intro fuel
  induction fuel with
  | zero =>
    intro start limit blk cap hcap
    simp [purgeBlockCaps] at hcap
  | succ fuel ih =>
    intro start limit blk cap hcap
    rw [purgeBlockCaps] at hcap
    by_cases hlt : start < limit
    · rw [if_pos hlt] at hcap
      rcases List.mem_cons.mp hcap with rfl | hcap
      · by_cases hover : start + sizes blk > limit
        · rw [if_pos hover]
        · rw [if_neg hover]
          omega
      · exact ih _ _ _ _ hcap
    · rw [if_neg hlt] at hcap
      cases hcap

/-- C3: whenever `purgeReadings` runs with the keep-unsent flag set
(`flags & 0x01`) and `sent ≠ 0`, no row with rowid greater than `sent` is
deleted: the ceiling is clamped to `min(sent, snapshot max rowid)` before the
binary search and every DELETE of the block loop removes only rows with
rowid at most that ceiling. (`1 ≤ minrowid` states that the snapshot is a
non-empty SQLite table, whose rowids are at least 1, keeping the natural-number
model aligned with the C unsigned arithmetic.) -/
theorem purgeReadings_keeps_unsent (flags sent minrowid maxrowid : Nat)
    (oldAt : Nat → Bool) (sizes : Nat → Nat) (rows : List Nat)
    (hflag : flags % 2 = 1) (hsent : sent ≠ 0) (_hmin : 1 ≤ minrowid) :
    ∀ rid ∈ purgeDeletedRowids flags sent minrowid maxrowid oldAt sizes rows,
      rid ≤ sent := by
  intro rid hrid
  rw [purgeDeletedRowids] at hrid
  rcases hceil : purgeCeiling flags sent minrowid maxrowid oldAt with _ | c
  · rw [hceil] at hrid
    cases hrid
  · rw [hceil] at hrid
    have hc := purgeCeiling_le_sent flags sent minrowid maxrowid oldAt hflag hsent c hceil
    obtain ⟨hmem, hany⟩ := List.mem_filter.mp hrid
    obtain ⟨cap, hcap, hdec⟩ := List.any_eq_true.mp hany
    have hle : rid ≤ cap := of_decide_eq_true hdec
    exact le_trans (le_trans hle (purgeBlockCaps_le sizes (c + 1) minrowid c 0 cap hcap)) hc

theorem purgeReadings_keeps_unsent_witness :
    3 ∈ purgeDeletedRowids 1 5 1 10 (fun rid => decide (rid ≤ 7)) (fun _ => 20)
        [1, 2, 3, 4, 5, 6, 7, 8, 9, 10]
    ∧ 3 ≤ 5 :=
  ⟨by decide,
   purgeReadings_keeps_unsent 1 5 1 10 (fun rid => decide (rid ≤ 7)) (fun _ => 20)
     [1, 2, 3, 4, 5, 6, 7, 8, 9, 10] (by decide) (by decide) (by decide) 3 (by decide)⟩

/-! ## Claim C7 -/

theorem nextPurgeBlockSize_bounds (size avg : Nat) (h1 : 20 ≤ size)
    (h2 : size ≤ 1500) :
    20 ≤ nextPurgeBlockSize size avg ∧ nextPurgeBlockSize size avg ≤ 1500 := by
  rw [nextPurgeBlockSize]
  by_cases hdev : 7000 < ((avg : Int) - TARGET_PURGE_BLOCK_DEL_TIME).natAbs
  · rw [if_pos hdev]
    simp only [MIN_PURGE_DELETE_BLOCK_SIZE, MAX_PURGE_DELETE_BLOCK_SIZE,
      PURGE_BLOCK_SZ_GRANULARITY]
    split_ifs <;> omega
  · rw [if_neg hdev]
    exact ⟨h1, h2⟩

/-- C7: `purgeBlockSize` stays within `[20, 1500]` at all times: the static
initialiser is `PURGE_DELETE_BLOCK_SIZE = 20`, and every recomputation in the
purge loop (scale by `70000/avg` clamped to `[0.5x, 2.0x]`, round down to a
multiple of 5) re-clamps its result to
`[MIN_PURGE_DELETE_BLOCK_SIZE, MAX_PURGE_DELETE_BLOCK_SIZE] = [20, 1500]`, so
after any number of recomputations the size is in `[20, 1500]`. -/
theorem purgeBlockSize_bounds :
    PURGE_DELETE_BLOCK_SIZE = 20
    ∧ (∀ size avg, 20 ≤ size → size ≤ 1500 →
        20 ≤ nextPurgeBlockSize size avg ∧ nextPurgeBlockSize size avg ≤ 1500)
    ∧ (∀ (avgs : Nat → Nat) (n : Nat),
        20 ≤ purgeBlockSizeAt avgs n ∧ purgeBlockSizeAt avgs n ≤ 1500) := by
  refine ⟨rfl, nextPurgeBlockSize_bounds, ?_⟩
  intro avgs n
  induction n with
  | zero => exact ⟨le_refl _, by norm_num [purgeBlockSizeAt, PURGE_DELETE_BLOCK_SIZE]⟩
  | succ n ih => exact nextPurgeBlockSize_bounds _ _ ih.1 ih.2

theorem purgeBlockSize_bounds_witness :
    20 ≤ nextPurgeBlockSize 100 300000 ∧ nextPurgeBlockSize 100 300000 ≤ 1500 :=
  purgeBlockSize_bounds.2.1 100 300000 (by decide) (by decide)

/-! ## Claim C8 -/

/-- C8: in `processQueue`, when the front resend-queue batch fails to persist
for the 6th consecutive time (the failure counter, at 5 after five failures,
exceeds 5 on this one), exactly the first 5 readings of that batch — or all of
them if fewer remain — are removed from its front, the discarded counter grows
by exactly that number, and the failure counter is reset to 0; any earlier
failure just increments the counter and leaves the batch untouched. -/
theorem processQueue_resend_drop (q : List Nat) (rest : List (List Nat))
    (failCnt d : Nat) :
    (5 ≤ failCnt →
      resendFailStep (q :: rest) failCnt d
        = ((if (q.drop 5).isEmpty then rest else q.drop 5 :: rest), 0,
           d + min 5 q.length))
    ∧ (failCnt < 5 →
      resendFailStep (q :: rest) failCnt d = (q :: rest, failCnt + 1, d)) := by
  constructor
  · intro h
    simp only [resendFailStep]
    rw [if_pos (by omega)]
  · intro h
    simp only [resendFailStep]
    rw [if_neg (by omega)]

theorem processQueue_resend_drop_witness :
    resendFailStep [[10, 20, 30, 40, 50, 60, 70]] 5 2 = ([[60, 70]], 0, 7)
    ∧ resendFailStep [[10, 20, 30, 40, 50, 60, 70]] 0 2
        = ([[10, 20, 30, 40, 50, 60, 70]], 1, 2) := by
  constructor
  · rw [(processQueue_resend_drop [10, 20, 30, 40, 50, 60, 70] [] 5 2).1 (le_refl _)]
    rfl
  · exact (processQueue_resend_drop [10, 20, 30, 40, 50, 60, 70] [] 0 2).2 (by decide)

/-! ## Claim C10 -/

/-- C10 counterexample: a stats tick with one pending asset delta and a zero
discarded counter submits a non-empty update that contains `READINGS` but no
`DISCARDED` row — `DISCARDED` is not always included. -/
theorem updateStats_discarded_not_always :
    updateStatsKeys [("sinusoid", 3)] 0 ≠ []
    ∧ StatKey.discarded ∉ updateStatsKeys [("sinusoid", 3)] 0
    ∧ StatKey.readings ∈ updateStatsKeys [("sinusoid", 3)] 0 := by
  decide

/-- C10 (amended): on every stats-flush tick of `updateStats` that submits a
batch update (the pending map is non-empty, and `processQueue` only ever adds
positive per-asset deltas), the `READINGS` row is always included, while the
`DISCARDED` row is included exactly when the discarded counter is nonzero. -/
theorem updateStats_special_keys (pending : List (String × Nat)) (d : Nat)
    (hne : pending ≠ []) (hpos : ∀ p ∈ pending, 0 < p.2) :
    StatKey.readings ∈ updateStatsKeys pending d
    ∧ (StatKey.discarded ∈ updateStatsKeys pending d ↔ d ≠ 0) := by
  have h0 : pending.isEmpty = false := by
    cases pending with
    | nil => exact absurd rfl hne
    | cons p t => rfl
  have hsum : ((pending.map fun p => p.2).sum) ≠ 0 := by
    cases pending with
    | nil => exact absurd rfl hne
    | cons p t =>
      have hp := hpos p (List.mem_cons_self p t)
      simp only [List.map_cons, List.sum_cons]
      omega
  constructor
  · simp [updateStatsKeys, h0, hsum, List.mem_append]
  · by_cases hd : d = 0
    · subst hd
      simp [updateStatsKeys, h0, hsum, List.mem_append]
    · simp [updateStatsKeys, h0, hsum, hd, List.mem_append]

theorem updateStats_special_keys_witness :
    StatKey.readings ∈ updateStatsKeys [("pump", 2)] 4
    ∧ (StatKey.discarded ∈ updateStatsKeys [("pump", 2)] 4 ↔ (4 : Nat) ≠ 0) :=
  updateStats_special_keys [("pump", 2)] 4 (by decide) (by decide)
